import Mathlib

/-!
Verification development for the guarded read-only Oracle SQL gateway
(`oracledb_mcp_server.py`): the statement validator, the bounded
pagination executor, the value normalizer and the byte-budgeted JSON
serializer, together with the exposed tool entry points.

The source is Python; the embedding below translates each function over
`String` / `List Char` and models the database driver as an explicit row
source.  Behaviour of the external `sqlparse` library is modelled at the
granularity the validator observes it: statement splitting on top-level
semicolons outside single-quoted strings, `get_type` as the first
meaningful keyword after whitespace and comments, and the token scan of
`validate_query` as a substring scan over the statement text (the
keywords `union` / `into` are single tokens in the token stream, whose
concatenation is the statement text).  Regex `\b` word boundaries are
modelled for ASCII word characters.
-/

namespace OracleMCP

/-- Left brace character, kept out of string literals. -/
def lbrace : Char := Char.ofNat 123

/-- Right brace character, kept out of string literals. -/
def rbrace : Char := Char.ofNat 125

/-- Single-quote character. -/
def qchar : Char := Char.ofNat 39

/-- Substring containment over character lists: `containsSub hay pat` is
true when `pat` occurs contiguously inside `hay` (Python `pat in hay`). -/
def containsSub : List Char → List Char → Bool
  | [], pat => pat.isEmpty
  | c :: rest, pat => pat.isPrefixOf (c :: rest) || containsSub rest pat

/-- One-state scanner for the line-comment pass `re.sub(r'--.*$', '', q,
flags=re.MULTILINE)`: when the flag is true we are inside a line comment
and drop characters up to (but not including) the newline. -/
def stripLCAux : Bool → List Char → List Char
  | _, [] => []
  | true, c :: rest =>
    if c = '\n' then c :: stripLCAux false rest else stripLCAux true rest
  | false, [c] => [c]
  | false, c :: c2 :: rest =>
    if c = '-' && c2 = '-' then stripLCAux true rest
    else c :: stripLCAux false (c2 :: rest)

/-- Line-comment stripping, first pass of `check_dangerous_keywords`. -/
def stripLC (cs : List Char) : List Char := stripLCAux false cs

/-- Drop characters up to and through the first block-comment closer. -/
def dropThroughClose : List Char → List Char
  | [] => []
  | '*' :: '/' :: r => r
  | _ :: r => dropThroughClose r

/-- Pattern of a block-comment closer. -/
def closePat : List Char := ['*', '/']

/-- Fuelled scanner for the block-comment pass `re.sub(r'/\*.*?\*/', '',
q, flags=re.DOTALL)`: a `/*` with a later `*/` is removed up to the
nearest closer (non-greedy); a `/*` with no closer anywhere matches
nothing and the remainder is kept verbatim.  Each step consumes at least
one character, so fuel `cs.length` never runs out. -/
def stripBCAux : Nat → List Char → List Char
  | 0, cs => cs
  | fuel + 1, cs =>
    match cs with
    | [] => []
    | '/' :: '*' :: rest =>
      if containsSub rest closePat then stripBCAux fuel (dropThroughClose rest)
      else cs
    | c :: rest => c :: stripBCAux fuel rest

/-- Block-comment stripping, second pass of `check_dangerous_keywords`. -/
def stripBC (cs : List Char) : List Char := stripBCAux cs.length cs

/-- ASCII word character, modelling `\w` for the regex `\b` boundaries
(the dangerous keywords and SQL syntax around them are ASCII). -/
def isWordChar (c : Char) : Bool := c.isAlphanum || c = '_'

/-- Whole-word search `re.search(r'\b' + kw + r'\b', s)`: `pat` occurs at
some position whose preceding character (tracked in the first argument)
and following character are absent or non-word. -/
def wwSearch (pat : List Char) : Option Char → List Char → Bool
  | _, [] => false
  | prevc, c :: rest =>
    ((match prevc with
      | none => true
      | some p => !isWordChar p) &&
     pat.isPrefixOf (c :: rest) &&
     (match (List.drop pat.length (c :: rest)).head? with
      | none => true
      | some nx => !isWordChar nx)) ||
    wwSearch pat (some c) rest

/-- The reserved mutating/DDL/DCL/transaction keywords of the source. -/
def DANGEROUS_KEYWORDS : List String :=
  ["drop", "delete", "update", "insert", "merge",
   "truncate", "alter", "create", "grant", "revoke",
   "execute", "commit", "rollback", "savepoint"]

/-- Comment stripping followed by lowercasing, the preprocessing of
`check_dangerous_keywords`. -/
def cleaned (q : String) : List Char :=
  (stripBC (stripLC q.data)).map Char.toLower

/-- Model of `check_dangerous_keywords`: strip comments, lowercase, then
raise on the first dangerous keyword found as a whole word. -/
def check_dangerous_keywords (q : String) : Except String Unit :=
  match DANGEROUS_KEYWORDS.find? (fun kw => wwSearch kw.data none (cleaned q)) with
  | some kw => .error ("危険なキーワード \x27" ++ kw ++ "\x27 が検出されました")
  | none => .ok ()

/-- Statement splitting on `;` outside single-quoted string literals,
modelling how `sqlparse.parse` separates statements.  The accumulator
holds the current statement reversed; the flag tracks being inside a
string literal. -/
def splitStmts : List Char → List Char → Bool → List (List Char)
  | [], cur, _ => [cur.reverse]
  | c :: rest, cur, true => splitStmts rest (c :: cur) (!(c = qchar))
  | c :: rest, cur, false =>
    if c = qchar then splitStmts rest (c :: cur) true
    else if c = ';' then cur.reverse :: splitStmts rest [] false
    else splitStmts rest (c :: cur) false

/-- Nonempty statements of a query string (empty input parses to no
statements). -/
def parse_statements (q : String) : List (List Char) :=
  (splitStmts q.data [] false).filter (fun s => !s.isEmpty)

/-- Rejoin split statements with the `;` separators the splitter
consumed; `joinSemi (splitStmts cs [] false) = cs`. -/
def joinSemi : List (List Char) → List Char
  | [] => []
  | [x] => x
  | x :: y :: t => x ++ ';' :: joinSemi (y :: t)

/-- Fuelled skipping of whitespace and comments before the first
meaningful token, as `sqlparse`'s `get_type` does.  An unclosed block
comment swallows the rest of the statement. -/
def skipWsC : Nat → List Char → List Char
  | 0, cs => cs
  | _ + 1, [] => []
  | fuel + 1, c1 :: rest =>
    if c1.isWhitespace then skipWsC fuel rest
    else
      match c1, rest with
      | '-', '-' :: r => skipWsC fuel (r.dropWhile (fun c => !(c = '\n')))
      | '/', '*' :: r =>
        if containsSub r closePat then skipWsC fuel (dropThroughClose r) else []
      | _, _ => c1 :: rest

/-- First keyword of a statement: its leading run of letters. -/
def firstWord (cs : List Char) : List Char := cs.takeWhile (fun c => c.isAlpha)

/-- Model of `stmt.get_type() == 'SELECT'`: the first meaningful keyword
is `SELECT` (case-insensitive).  `sqlparse`'s CTE handling of `WITH` is
not modelled; no claim depends on it. -/
def stmt_is_select (stmt : List Char) : Bool :=
  (firstWord (skipWsC (stmt.length + 1) stmt)).map Char.toLower = "select".data

/-- Model of `validate_query`: parse, reject empty input, reject multiple
statements, require a SELECT, then reject any statement whose token text
contains `union` or `into` (case-insensitive substring over the
statement text, which is the concatenation of the token values). -/
def validate_query (q : String) : Except String Unit :=
  match parse_statements q with
  | [] => .error "無効なSQLクエリです"
  | stmt :: rest =>
    if !rest.isEmpty then .error "複数のSQLステートメントは許可されていません"
    else if !stmt_is_select stmt then .error "SELECT文以外のクエリは実行できません"
    else
      let lowv := stmt.map Char.toLower
      if containsSub lowv "union".data || containsSub lowv "into".data then
        .error "許可されていない操作が含まれています"
      else .ok ()

/-- Whether an `Except` is a success. -/
def exOk : Except String α → Bool
  | .ok _ => true
  | .error _ => false

/-!  Bind-parameter values and `sanitize_input`. -/

/-- A Python value passed as a bind parameter.  Scalars carry their
payload; `pyFloat` is a tag (no claim computes with floats); `pyOther`
stands for any non-scalar value and carries the text of its type. -/
inductive PyValue
  | pyStr (s : String)
  | pyInt (n : Int)
  | pyFloat
  | pyBool (b : Bool)
  | pyNone
  | pyOther (typeName : String)
deriving DecidableEq

/-- Whether a value passes the `isinstance((str, int, float, bool,
NoneType))` check. -/
def py_is_scalar : PyValue → Bool
  | .pyOther _ => false
  | _ => true

/-- Whether a value passes the string-length cap (strings at most 4000
characters; other values trivially pass). -/
def py_len_ok : PyValue → Bool
  | .pyStr s => s.length ≤ 4000
  | _ => true

/-- Whether the leading character can start an identifier. -/
def identStart (c : Char) : Bool :=
  (c.isAlpha && c.toNat < 128) || c = '_'

/-- Whether a character can continue an identifier. -/
def identCont (c : Char) : Bool :=
  (c.isAlphanum && c.toNat < 128) || c = '_'

/-- Core match of `[a-zA-Z_][a-zA-Z0-9_]*` against a whole string. -/
def identCore : List Char → Bool
  | [] => false
  | c :: rest => identStart c && rest.all identCont

/-- Model of `re.match(r'^[a-zA-Z_][a-zA-Z0-9_]*$', s)`: in Python `$`
also matches just before a single trailing newline. -/
def pyIdentMatch (cs : List Char) : Bool :=
  identCore cs || (cs.getLast? = some '\n' && identCore cs.dropLast)

/-- Validation of one bind parameter, in the order the source checks:
name pattern, then scalar type, then string length. -/
def checkParam (k : String) (v : PyValue) : Except String Unit :=
  if !pyIdentMatch k.data then .error ("無効なパラメータ名: " ++ k)
  else if !py_is_scalar v then .error "無効なパラメータ型"
  else if !py_len_ok v then .error ("文字列パラメータが長すぎます: " ++ k)
  else .ok ()

/-- Sequential validation of a parameter list, keeping the entries. -/
def sanitizeList : List (String × PyValue) → Except String (List (String × PyValue))
  | [] => .ok []
  | (k, v) :: rest =>
    match checkParam k v with
    | .error e => .error e
    | .ok _ =>
      match sanitizeList rest with
      | .error e => .error e
      | .ok r => .ok ((k, v) :: r)

/-- Model of `sanitize_input`: a falsy parameter mapping becomes `none`;
otherwise every entry is validated and the mapping is returned. -/
def sanitize_input (params : List (String × PyValue)) :
    Except String (Option (List (String × PyValue))) :=
  if params.isEmpty then .ok none
  else (sanitizeList params).map some

/-!  The bounded fetch loop of `execute_query`. -/

/-- The fetch loop of `execute_query`, over an arbitrary row source:
`f k` is what the `k`-th `fetchmany()` call returns and `fo k` what a
`fetchone()` probe after `k` fetch calls returns (both may misreport).
Mirrors the source: while fewer than `maxRows` rows are accumulated,
fetch a batch; an empty batch ends the loop with no truncation flag; a
batch reaching `maxRows` ends it with the page cut to `maxRows` and the
flag set iff the probe yields a row.  The result also carries the number
of fetch calls made; `none` means the fuel ran out (shown impossible for
fuel `maxRows + 1` in `fetch_loop_terminates`). -/
def fetch_loop (f : Nat → List ρ) (fo : Nat → Option ρ) (maxRows : Nat) :
    Nat → Nat → List ρ → Option (List ρ × Bool × Nat)
  | fuel, k, acc =>
    if maxRows ≤ acc.length then some (acc, false, k)
    else
      match fuel with
      | 0 => none
      | fuel + 1 =>
        match f k with
        | [] => some (acc, false, k + 1)
        | batch =>
          if maxRows ≤ (acc ++ batch).length then
            some ((acc ++ batch).take maxRows, (fo (k + 1)).isSome, k + 1)
          else fetch_loop f fo maxRows fuel (k + 1) (acc ++ batch)

/-- Honest cursor over a fixed row list: `cursor.arraysize` is
`min maxRows 100`, so the `k`-th `fetchmany` yields the next batch of at
most that many rows, and a probe after `k` full fetches yields the row
at the corresponding offset. -/
def execute_query_fetch (rows : List ρ) (maxRows : Nat) : List ρ × Bool :=
  let b := min maxRows 100
  match fetch_loop (fun k => (rows.drop (b * k)).take b)
      (fun k => (rows.drop (b * k)).head?) maxRows (maxRows + 1) 0 [] with
  | some (res, more, _) => (res, more)
  | none => ([], false)

/-- Row retrieval of `execute_query`: bounded fetch when `max_rows` is
given, `fetchall` otherwise. -/
def run_fetch (rows : List ρ) : Option Nat → List ρ × Bool
  | some m => execute_query_fetch rows m
  | none => (rows, false)

set_option linter.unusedVariables false in
/-- Model of `execute_query`: validate the query, then dispatch with the
bind parameters.  The database is modelled by the row list it would
answer and by `execErr`, an `oracledb.Error` raised during execution
(wrapped as in the source).  The bind parameters are passed to the
driver but never inspected: the source performs no parameter validation
here. -/
def execute_query (q : String) (params : List (String × PyValue))
    (rows : List ρ) (maxRows : Option Nat) (execErr : Option String) :
    Except String (List ρ × Bool) :=
  match validate_query q with
  | .error e => .error e
  | .ok _ =>
    match execErr with
    | some m => .error ("SQL実行エラー: " ++ m)
    | none => .ok (run_fetch rows maxRows)

/-!  Value normalization performed in `execute` before serialization. -/

/-- A raw column value as the driver delivers it.  LOBs carry what the
corresponding branch of the source renders: a BLOB its byte size, a CLOB
the text `str(value)` produces, a BFILE nothing.  `vnull` is SQL NULL
and `vstr` any other value, carrying the text `str(value)` yields. -/
inductive OraValue
  | vblob (size : Nat)
  | vclob (s : String)
  | vbfile
  | vnull
  | vstr (s : String)
deriving DecidableEq

/-- Per-cell normalization of `execute` (lines 262–276 of the source):
BLOBs become a byte-count descriptor, CLOBs their text, BFILEs a fixed
placeholder, NULL the empty string, anything else its `str()` text. -/
def process_value : OraValue → String
  | .vblob size => "<BLOBデータ: " ++ toString size ++ " bytes>"
  | .vclob s => s
  | .vbfile => "<BFILEデータです>"
  | .vnull => ""
  | .vstr s => s

/-- Row-wise normalization of `execute`. -/
def process_row (row : List OraValue) : List String :=
  row.map process_value

/-!  JSON rendering as `json.dumps(..., ensure_ascii=False, indent=2)`
produces it, and the byte-budget truncation of `format_results`. -/

/-- A serialized record: column names paired with cell text, in
insertion order (a Python dict built by repeated assignment). -/
abbrev Rec := List (String × String)

/-- JSON escaping of one character (`ensure_ascii=False`): quote,
backslash and ASCII control characters are escaped, everything else is
emitted verbatim. -/
def json_escape_char (c : Char) : List Char :=
  if c = '"' then ['\\', '"']
  else if c = '\\' then ['\\', '\\']
  else if c = '\n' then ['\\', 'n']
  else if c = '\t' then ['\\', 't']
  else if c = '\r' then ['\\', 'r']
  else if c = Char.ofNat 8 then ['\\', 'b']
  else if c = Char.ofNat 12 then ['\\', 'f']
  else if c.toNat < 32 then
    ['\\', 'u', '0', '0', Nat.digitChar (c.toNat / 16), Nat.digitChar (c.toNat % 16)]
  else [c]

/-- A JSON string literal. -/
def json_str (s : String) : List Char :=
  '"' :: (s.data.map json_escape_char).flatten ++ ['"']

/-- Joining rendered pieces with a separator. -/
def sep_join (sep : List Char) : List (List Char) → List Char
  | [] => []
  | [x] => x
  | x :: y :: xs => x ++ sep ++ sep_join sep (y :: xs)

/-- Assignment into a Python dict: an existing key keeps its position
and takes the new value, a new key is appended. -/
def dict_insert (d : Rec) (k v : String) : Rec :=
  if d.any (fun p => p.1 = k) then
    d.map (fun p => if p.1 = k then (k, v) else p)
  else d ++ [(k, v)]

/-- The record `format_results` builds for one row:
`for header, value in zip(headers, row): record[header] = value`. -/
def build_record (headers : List String) (row : List String) : Rec :=
  (headers.zip row).foldl (fun d p => dict_insert d p.1 p.2) []

/-- Rendering of one record at indent level one, as `json.dumps` with
`indent=2` prints a dict nested in a list. -/
def render_record (r : Rec) : List Char :=
  match r with
  | [] => [lbrace, rbrace]
  | _ =>
    [lbrace, '\n'] ++
    sep_join (",\n".data)
      (r.map (fun p => "    ".data ++ json_str p.1 ++ [':', ' '] ++ json_str p.2)) ++
    ['\n', ' ', ' ', rbrace]

/-- Rendering of the record list, as `json.dumps` with `indent=2`. -/
def render_list (rs : List Rec) : List Char :=
  match rs with
  | [] => ['[', ']']
  | _ =>
    ['[', '\n'] ++
    sep_join (",\n".data) (rs.map (fun r => [' ', ' '] ++ render_record r)) ++
    ['\n', ']']

/-- The row-limit continuation notice of `format_results`. -/
def row_limit_msg : String :=
  "(行数制限により以降は省略。max_rows値を増やして再実行してください。)"

/-- The byte-limit continuation notice of `format_results`. -/
def char_limit_msg : String :=
  "(文字数制限により以降は省略。max_length値を増やして再実行してください。)"

/-- The synthetic closing fragment appended after byte-budget truncation
(the literal of line 159 of the source). -/
def char_limit_fragment : List Char :=
  (",\n  \x7b\n    \"message\": \"" ++ char_limit_msg ++ "\"\n  \x7d\n]").data

/-- The records serialized for a page: one per row, plus the row-limit
notice record when more rows exist. -/
def page_records (headers : List String) (results : List (List String))
    (more : Bool) : List Rec :=
  let recs := results.map (build_record headers)
  if more then recs ++ [[("message", row_limit_msg)]] else recs

/-- The full rendered serialization of a page, before any byte-budget
truncation. -/
def full_render (headers : List String) (results : List (List String))
    (more : Bool) : List Char :=
  render_list (page_records headers results more)

/-- Model of `format_results`: an empty page yields a fixed sentinel;
otherwise the page is rendered as JSON and, when the text exceeds
`max_length` characters, it is cut to the budget, then back to the last
right brace in that prefix when one exists, and the closing fragment
with the byte-limit notice is appended. -/
def format_results (headers : List String) (results : List (List String))
    (max_length : Nat) (more_rows_exist : Bool) : String :=
  if results.isEmpty then "検索結果はありません"
  else
    let result_str := full_render headers results more_rows_exist
    if max_length < result_str.length then
      let truncated := result_str.take max_length
      let cut :=
        if truncated.any (fun c => c = rbrace) then
          (truncated.reverse.dropWhile (fun c => !(c = rbrace))).reverse
        else truncated
      ⟨cut ++ char_limit_fragment⟩
    else ⟨result_str⟩

/-!  The `execute` wrapper: connection lifecycle and error wrapping. -/

/-- Observable resource events of one `execute` call. -/
inductive Ev
  | connect
  | close
deriving DecidableEq

/-- Model of `execute`: acquire a connection (or fail as
`get_db_connection` does when `connFail` carries its error), run
`execute_query`, normalize, serialize, and release the connection in the
`finally` block; every exception is re-raised wrapped in
`"エラーが発生しました: "`.  The first component lists the connection
events that occurred, in order. -/
def execute (connFail : Option String) (q : String)
    (params : List (String × PyValue)) (headers : List String)
    (rows : List (List OraValue)) (maxLen : Nat) (maxRows : Option Nat)
    (execErr : Option String) : List Ev × Except String String :=
  match connFail with
  | some msg => ([], .error ("エラーが発生しました: " ++ msg))
  | none =>
    match execute_query q params rows maxRows execErr with
    | .error e => ([Ev.connect, Ev.close], .error ("エラーが発生しました: " ++ e))
    | .ok (res, more) =>
      let processed := res.map process_row
      ([Ev.connect, Ev.close], .ok (format_results headers processed maxLen more))

/-- One text content item of an MCP tool response. -/
structure TextContent where
  type : String
  text : String
deriving DecidableEq

/-- Model of the `execute_oracle` tool: run `execute` and convert either
outcome into a single-element text response. -/
def execute_oracle (connFail : Option String) (q : String)
    (params : List (String × PyValue)) (maxLen maxRows : Nat)
    (headers : List String) (rows : List (List OraValue))
    (execErr : Option String) : List TextContent :=
  match (execute connFail q params headers rows maxLen (some maxRows) execErr).2 with
  | .ok s => [⟨"text", s⟩]
  | .error e => [⟨"text", e⟩]

/-!  A checker for the serializer's JSON format: an array of flat
objects whose keys and values are strings.  Used to state structural
validity of truncated output. -/

/-- Tokens of the serialized format. -/
inductive JTok
  | lb
  | rb
  | lc
  | rc
  | comma
  | colon
  | str
deriving DecidableEq

/-- Skip past the closing quote of a string literal, honouring
backslash escapes; `none` when the literal never closes. -/
def jstrSkip : List Char → Option (List Char)
  | [] => none
  | c :: rest =>
    if c = '"' then some rest
    else if c = '\\' then
      match rest with
      | [] => none
      | _ :: r => jstrSkip r
    else jstrSkip rest

/-- Fuelled lexer: whitespace is skipped, punctuation and string
literals become tokens, anything else is invalid.  Each step consumes at
least one character, so fuel `cs.length + 1` suffices. -/
def jlex : Nat → List Char → Option (List JTok)
  | 0, _ => none
  | _ + 1, [] => some []
  | fuel + 1, c :: rest =>
    if c = ' ' || c = '\n' || c = '\t' || c = '\r' then jlex fuel rest
    else if c = '[' then (jlex fuel rest).map (JTok.lb :: ·)
    else if c = ']' then (jlex fuel rest).map (JTok.rb :: ·)
    else if c = lbrace then (jlex fuel rest).map (JTok.lc :: ·)
    else if c = rbrace then (jlex fuel rest).map (JTok.rc :: ·)
    else if c = ',' then (jlex fuel rest).map (JTok.comma :: ·)
    else if c = ':' then (jlex fuel rest).map (JTok.colon :: ·)
    else if c = '"' then
      match jstrSkip rest with
      | none => none
      | some rest2 => (jlex fuel rest2).map (JTok.str :: ·)
    else none

/-- Parse the members of an object after its opening brace: `str colon
str` pairs separated by commas, ended by a closing brace. -/
def jobjMembers : Nat → List JTok → Option (List JTok)
  | 0, _ => none
  | fuel + 1, ts =>
    match ts with
    | .str :: .colon :: .str :: rest =>
      match rest with
      | .comma :: rest2 => jobjMembers fuel rest2
      | .rc :: rest2 => some rest2
      | _ => none
    | _ => none

/-- Parse one object. -/
def jobject (fuel : Nat) (ts : List JTok) : Option (List JTok) :=
  match ts with
  | .lc :: .rc :: rest => some rest
  | .lc :: rest => jobjMembers fuel rest
  | _ => none

/-- Parse the elements of an array after its opening bracket: objects
separated by commas, ended by a closing bracket. -/
def jarrElems : Nat → List JTok → Option (List JTok)
  | 0, _ => none
  | fuel + 1, ts =>
    match jobject fuel ts with
    | none => none
    | some rest =>
      match rest with
      | .comma :: rest2 => jarrElems fuel rest2
      | .rb :: rest2 => some rest2
      | _ => none

/-- Whether a text is a well-formed instance of the serialization
format: one array of flat string-keyed, string-valued objects. -/
def is_valid_json (cs : List Char) : Bool :=
  match jlex (cs.length + 1) cs with
  | none => false
  | some ts =>
    match ts with
    | .lb :: .rb :: rest => rest.isEmpty
    | .lb :: rest =>
      match jarrElems (rest.length + 1) rest with
      | some [] => true
      | _ => false
    | _ => false

/-!  The `list_tables` query builder. -/

/-- Sanitization of the `order_by` argument (lines 614–615 of the
source): anything but the two allowed column names falls back to the
default. -/
def sanitized_order_by (ob : String) : String :=
  if ob = "TABLE_NAME" || ob = "CREATED" then ob else "TABLE_NAME"

/-- The system-table filter fragment (line 618 of the source). -/
def system_table_condition (include_system_tables : Bool) : String :=
  if !include_system_tables then "AND t.table_name NOT LIKE \x27%$%\x27" else ""

/-- Text of the `list_tables` query up to and including its WHERE
condition: the f-string literal of the source, with the
pattern-filtering variant when a name pattern is supplied. -/
def list_tables_body (name_pattern : Option String)
    (include_system_tables : Bool) : String :=
  let common := "\n                SELECT \n                    t.table_name,\n                    t.tablespace_name,\n                    TO_CHAR(t.last_analyzed, \x27YYYY-MM-DD HH24:MI:SS\x27) as last_analyzed,\n                    TO_CHAR(t.num_rows) as num_rows,\n                    TO_CHAR(o.created, \x27YYYY-MM-DD HH24:MI:SS\x27) as created_date\n                FROM user_tables t\n                JOIN user_objects o ON t.table_name = o.object_name AND o.object_type = \x27TABLE\x27\n                WHERE "
  let cond :=
    match name_pattern with
    | some _ => "t.table_name LIKE :1 "
    | none => "1=1 "
  common ++ cond ++ system_table_condition include_system_tables

/-- The SQL text `list_tables` hands to the executor, after the
`order_by` sanitization. -/
def list_tables_sql (name_pattern : Option String) (order_by : String)
    (include_system_tables : Bool) : String :=
  list_tables_body name_pattern include_system_tables ++
    "\n                ORDER BY " ++
    sanitized_order_by order_by ++ "\n                "

/-!  Helper lemmas. -/

/-- Occurrence in the right part of an append is an occurrence. -/
theorem containsSub_append_right (xs ys pat : List Char)
    (h : containsSub ys pat = true) : containsSub (xs ++ ys) pat = true := by
  induction xs with
  | nil => simpa using h
  | cons c rest ih => simp [containsSub, ih]

/-- Dropping a while-run never lengthens a list. -/
theorem length_dropWhile_le (p : Char → Bool) (l : List Char) :
    (l.dropWhile p).length ≤ l.length := by
  induction l with
  | nil => simp [List.dropWhile]
  | cons c rest ih =>
    rw [List.dropWhile]
    by_cases h : p c
    · simp only [h, List.length_cons]
      omega
    · simp only [Bool.not_eq_true] at h
      simp only [h]
      exact Nat.le_refl _

/-- The statement splitter always yields at least one piece. -/
theorem splitStmts_ne_nil (cs cur : List Char) (b : Bool) :
    splitStmts cs cur b ≠ [] := by
  induction cs generalizing cur b with
  | nil => simp [splitStmts]
  | cons c rest ih =>
    cases b with
    | true => rw [splitStmts]; exact ih _ _
    | false =>
      by_cases hq : c = qchar
      · rw [splitStmts]; rw [if_pos hq]; exact ih _ _
      · by_cases hc : c = ';'
        · rw [splitStmts]; rw [if_neg hq, if_pos hc]; simp
        · rw [splitStmts]; rw [if_neg hq, if_neg hc]; exact ih _ _

/-- Rejoining the split pieces with `;` restores the input: the splitter
drops exactly the top-level semicolons it separates on. -/
theorem splitStmts_join (cs : List Char) :
    ∀ (cur : List Char) (b : Bool),
      joinSemi (splitStmts cs cur b) = cur.reverse ++ cs := by
  induction cs with
  | nil => intro cur b; simp [splitStmts, joinSemi]
  | cons c rest ih =>
    intro cur b
    cases b with
    | true =>
      rw [splitStmts, ih (c :: cur) (!(c = qchar))]
      simp
    | false =>
      by_cases hq : c = qchar
      · rw [splitStmts]; rw [if_pos hq]
        rw [ih (c :: cur) true]
        simp
      · by_cases hc : c = ';'
        · rw [splitStmts]; rw [if_neg hq, if_pos hc]
          obtain ⟨y, t, hyt⟩ :=
            List.exists_cons_of_ne_nil (splitStmts_ne_nil rest [] false)
          rw [hyt, joinSemi, ← hyt, ih [] false]
          simp [hc]
        · rw [splitStmts]; rw [if_neg hq, if_neg hc]
          rw [ih (c :: cur) false]
          simp

/-- Substring containment coincides with list infixing. -/
theorem containsSub_iff_occurs (hay pat : List Char) :
    containsSub hay pat = true ↔ pat <:+: hay := by
  induction hay with
  | nil =>
    rw [containsSub]
    constructor
    · intro h
      have hp : pat = [] := by
        cases pat with
        | nil => rfl
        | cons a b => exact absurd h (by simp)
      rw [hp]
    · intro h
      rw [List.eq_nil_of_infix_nil h]
      rfl
  | cons c rest ih =>
    rw [containsSub, Bool.or_eq_true, ih]
    constructor
    · rintro (hp | hi)
      · exact (List.isPrefixOf_iff_prefix.mp hp).isInfix
      · exact List.infix_cons hi
    · intro h
      rcases List.infix_cons_iff.mp h with hp | hi
      · exact Or.inl (List.isPrefixOf_iff_prefix.mpr hp)
      · exact Or.inr hi

/-- A pattern that is nonempty and free of semicolons occurs past any
leading run of semicolons. -/
theorem infix_drop_replicate (m : Nat) (s pat : List Char) (hne : pat ≠ [])
    (hni : ';' ∉ pat) (h : pat <:+: List.replicate m ';' ++ s) :
    pat <:+: s := by
  induction m with
  | zero => simpa using h
  | succ m ih =>
    rw [List.replicate_succ, List.cons_append] at h
    rcases List.infix_cons_iff.mp h with hp | hi
    · cases pat with
      | nil => exact absurd rfl hne
      | cons p0 pp =>
        obtain ⟨t, ht⟩ := hp
        injection ht with h1 h2
        exact absurd (by rw [← h1]; exact List.mem_cons_self p0 pp) hni
    · exact ih hi

/-- A pattern that is nonempty and free of semicolons occurs before any
trailing run of semicolons. -/
theorem infix_drop_replicate_right (n : Nat) (s pat : List Char)
    (hne : pat ≠ []) (hni : ';' ∉ pat)
    (h : pat <:+: s ++ List.replicate n ';') : pat <:+: s := by
  rw [← List.reverse_infix] at h ⊢
  rw [List.reverse_append, List.reverse_replicate] at h
  exact infix_drop_replicate n s.reverse pat.reverse
    (by simpa using hne) (by simpa using hni) h

/-- Joining a piece onto all-empty pieces appends one semicolon per
empty piece. -/
theorem join_all_empty (ps : List (List Char))
    (h : ∀ p ∈ ps, p = []) :
    ∀ x, joinSemi (x :: ps) = x ++ List.replicate ps.length ';' := by
  induction ps with
  | nil => intro x; simp [joinSemi]
  | cons r t ih =>
    intro x
    have hr : r = [] := h r (List.mem_cons_self r t)
    have ht : ∀ p ∈ t, p = [] := fun p hp => h p (List.mem_cons_of_mem _ hp)
    rw [joinSemi, ih ht r, hr]
    simp [List.replicate_succ]

/-- When the splitter's pieces keep exactly one nonempty statement, the
rejoined input is that statement wrapped in runs of semicolons. -/
theorem filter_single_join (ps : List (List Char)) (stmt : List Char)
    (h : ps.filter (fun s => !s.isEmpty) = [stmt]) :
    ∃ i j, joinSemi ps = List.replicate i ';' ++ stmt ++ List.replicate j ';' := by
  induction ps with
  | nil => exact absurd h (by simp)
  | cons p rest ih =>
    by_cases hp : p.isEmpty
    · have hp' : p = [] := by
        cases p with
        | nil => rfl
        | cons a b => exact absurd hp (by simp)
      have hfil : (p :: rest).filter (fun s => !s.isEmpty) =
          rest.filter (fun s => !s.isEmpty) := by
        simp [List.filter, hp']
      rw [hfil] at h
      cases rest with
      | nil => exact absurd h (by simp)
      | cons r t =>
        obtain ⟨i, j, hij⟩ := ih h
        refine ⟨i + 1, j, ?_⟩
        rw [joinSemi, hij, hp']
        simp [List.replicate_succ]
    · have hp' : (!p.isEmpty) = true := by simp [hp]
      have hfil : (p :: rest).filter (fun s => !s.isEmpty) =
          p :: rest.filter (fun s => !s.isEmpty) := by
        simp [List.filter, hp']
      rw [hfil] at h
      injection h with h1 h2
      have hall : ∀ x ∈ rest, x = [] := by
        intro x hx
        have := List.filter_eq_nil_iff.mp h2 x hx
        cases x with
        | nil => rfl
        | cons a b => exact absurd (by simp : (!(a :: b).isEmpty) = true) this
      refine ⟨0, rest.length, ?_⟩
      rw [join_all_empty rest hall p, h1]
      simp

/-- Success of one parameter check coincides with the three conditions
the claim names. -/
theorem exOk_checkParam (k : String) (v : PyValue) :
    exOk (checkParam k v) =
      (pyIdentMatch k.data && py_is_scalar v && py_len_ok v) := by
  unfold checkParam
  cases h1 : pyIdentMatch k.data <;> cases h2 : py_is_scalar v <;>
    cases h3 : py_len_ok v <;> simp [h1, h2, h3, exOk]

/-- Success of the parameter-list sweep is the conjunction of the
per-parameter checks. -/
theorem sanitizeList_ok (params : List (String × PyValue)) :
    exOk (sanitizeList params) =
      params.all (fun kv => pyIdentMatch kv.1.data && py_is_scalar kv.2 && py_len_ok kv.2) := by
  induction params with
  | nil => rfl
  | cons kv rest ih =>
    obtain ⟨k, v⟩ := kv
    rw [List.all_cons, ← exOk_checkParam, ← ih]
    simp only [sanitizeList]
    cases hc : checkParam k v with
    | error e => simp [exOk, hc]
    | ok u =>
      cases hs : sanitizeList rest with
      | error e => simp [exOk, hc, hs]
      | ok r => simp [exOk, hc, hs]

/-- The fetch loop with fuel exceeding the missing row count returns,
and the number of fetch calls it has made stays below `k + fuel`. -/
theorem fetch_loop_some {ρ : Type} (f : Nat → List ρ) (fo : Nat → Option ρ)
    (maxRows : Nat) (fuel : Nat) :
    ∀ (k : Nat) (acc : List ρ), maxRows < acc.length + fuel →
      ∃ out, fetch_loop f fo maxRows fuel k acc = some out ∧ out.2.2 ≤ k + fuel := by
  induction fuel with
  | zero =>
    intro k acc h
    have hle : maxRows ≤ acc.length := by omega
    exact ⟨(acc, false, k), by rw [fetch_loop]; simp [hle],
      by show k ≤ k + 0; omega⟩
  | succ fuel ih =>
    intro k acc h
    by_cases hle : maxRows ≤ acc.length
    · exact ⟨(acc, false, k), by rw [fetch_loop]; simp [hle],
        by show k ≤ k + (fuel + 1); omega⟩
    · cases hf : f k with
      | nil =>
        refine ⟨(acc, false, k + 1), ?_, by show k + 1 ≤ k + (fuel + 1); omega⟩
        rw [fetch_loop]
        simp only [if_neg hle, hf]
      | cons r rs =>
        by_cases h2 : maxRows ≤ (acc ++ r :: rs).length
        · refine ⟨((acc ++ r :: rs).take maxRows, (fo (k + 1)).isSome, k + 1),
            ?_, by show k + 1 ≤ k + (fuel + 1); omega⟩
          rw [fetch_loop]
          simp only [if_neg hle, hf]
          rw [if_pos h2]
        · obtain ⟨out, ho, hk⟩ := ih (k + 1) (acc ++ r :: rs)
            (by simp only [List.length_append, List.length_cons]; omega)
          refine ⟨out, ?_, by omega⟩
          rw [fetch_loop]
          simp only [if_neg hle, hf]
          rw [if_neg h2]
          exact ho

/-!  Claim theorems. -/

/-- Claim C1, counterexample: for the one-row page `[["x"]]` under header
`["A"]` with budget 10 (smaller than the 24-character full rendering),
the serializer's output is 81 characters long, so it is not bounded by
the budget, and the claimed conjunction (budget bound, structural
validity, notice containment) fails. -/
theorem c1_counterexample :
    10 < (full_render ["A"] [["x"]] false).length ∧
    ¬ ((format_results ["A"] [["x"]] 10 false).length ≤ 10 ∧
       is_valid_json (format_results ["A"] [["x"]] 10 false).data = true ∧
       containsSub (format_results ["A"] [["x"]] 10 false).data
         char_limit_msg.data = true) := by
  refine ⟨by decide, fun h => absurd h.1 (by decide)⟩

/-- Claim C1, amended: for every nonempty row page and every budget
smaller than the full rendered serialization, the serializer's output
contains the byte-limit continuation notice, and its length is bounded
by the budget plus the length of the appended closing fragment (71
characters) — it may exceed the budget itself, and it need not be a
well-formed instance of the serialization format. -/
theorem c1_amended (headers : List String) (results : List (List String))
    (maxLen : Nat) (more : Bool) (hne : results ≠ [])
    (hlt : maxLen < (full_render headers results more).length) :
    (format_results headers results maxLen more).length ≤
      maxLen + char_limit_fragment.length ∧
    containsSub (format_results headers results maxLen more).data
      char_limit_msg.data = true := by
  have hemp : results.isEmpty = false := by
    cases results with
    | nil => exact absurd rfl hne
    | cons a b => rfl
  unfold format_results
  rw [hemp]
  simp only [Bool.false_eq_true, if_false, if_pos hlt]
  set full := full_render headers results more with hfull
  set truncated := full.take maxLen with htr
  have htrlen : truncated.length ≤ maxLen := by
    rw [htr, List.length_take]; omega
  set cut :=
    if truncated.any (fun c => c = rbrace) then
      (truncated.reverse.dropWhile (fun c => !(c = rbrace))).reverse
    else truncated with hcut
  have hcutlen : cut.length ≤ maxLen := by
    rw [hcut]
    by_cases hb : truncated.any (fun c => c = rbrace)
    · rw [if_pos hb, List.length_reverse]
      calc (truncated.reverse.dropWhile (fun c => !(c = rbrace))).length
          ≤ truncated.reverse.length := length_dropWhile_le _ _
        _ = truncated.length := List.length_reverse _
        _ ≤ maxLen := htrlen
    · rw [if_neg hb]; exact htrlen
  constructor
  · show (cut ++ char_limit_fragment).length ≤ maxLen + char_limit_fragment.length
    rw [List.length_append]
    omega
  · show containsSub (cut ++ char_limit_fragment) char_limit_msg.data = true
    exact containsSub_append_right _ _ _ (by decide)

/-- Claim C1 witness: the amended statement at header `["B"]`, page
`[["yy"]]`, budget 12. -/
theorem c1_witness :
    (format_results ["B"] [["yy"]] 12 false).length ≤
      12 + char_limit_fragment.length ∧
    containsSub (format_results ["B"] [["yy"]] 12 false).data
      char_limit_msg.data = true :=
  c1_amended ["B"] [["yy"]] 12 false (by decide) (by decide)

/-- Claim C2, counterexample: the normalizer of `execute` maps SQL NULL
to the empty string, not to a marker distinct from it. -/
theorem c2_counterexample : process_value OraValue.vnull = "" := rfl

/-- Claim C2, amended: for every row and every column holding SQL NULL,
the normalized cell that reaches the serializer is the empty string (the
source comments call this out: NULL is displayed as the empty string). -/
theorem c2_amended (row : List OraValue) (i : Nat) (h1 : i < row.length)
    (h2 : i < (process_row row).length)
    (hv : row.get ⟨i, h1⟩ = OraValue.vnull) :
    (process_row row).get ⟨i, h2⟩ = "" := by
  have : (process_row row).get ⟨i, h2⟩ = process_value (row.get ⟨i, h1⟩) := by
    simp [process_row]
  rw [this, hv]
  rfl

/-- Claim C2 witness: the amended statement at the one-cell row
`[NULL]`. -/
theorem c2_witness :
    (process_row [OraValue.vnull]).get ⟨0, by decide⟩ = "" :=
  c2_amended [OraValue.vnull] 0 (by decide) (by decide) (by decide)

/-- Claim C3, counterexample: a bare `UNION` immediately followed by
`SELECT`, which the claim says is accepted, is rejected by
`validate_query` (its token scan rejects any occurrence of `union`). -/
theorem c3_counterexample :
    containsSub "select a from t union select b from s".data
      " union select ".data = true ∧
    containsSub ("select a from t union select b from s".data.map Char.toLower)
      "union all".data = false ∧
    validate_query "select a from t union select b from s" =
      Except.error "許可されていない操作が含まれています" :=
  ⟨by decide, by decide, rfl⟩

/-- Claim C3, amended: the validator rejects every query containing the
substring `union` in any letter case — `UNION ALL` and bare `UNION`
immediately followed by `SELECT` alike; no UNION query is accepted.
(The occurrence cannot span the statement separators, so whether the
query is empty, multi-statement, or a single statement, validation
fails.) -/
theorem c3_amended (q : String)
    (hu : containsSub (q.data.map Char.toLower) "union".data = true) :
    exOk (validate_query q) = false := by
  have hinf : "union".data <:+: q.data.map Char.toLower :=
    (containsSub_iff_occurs _ _).mp hu
  have hjoin : joinSemi (splitStmts q.data [] false) = q.data := by
    simpa using splitStmts_join q.data [] false
  unfold validate_query
  cases hps : parse_statements q with
  | nil => rfl
  | cons stmt rest =>
    cases rest with
    | cons s2 t => rfl
    | nil =>
      have hsingle : (splitStmts q.data [] false).filter (fun s => !s.isEmpty)
          = [stmt] := hps
      obtain ⟨i, j, hij⟩ := filter_single_join _ _ hsingle
      have hq : q.data = List.replicate i ';' ++ stmt ++ List.replicate j ';' := by
        rw [← hjoin, hij]
      have hmap : q.data.map Char.toLower =
          List.replicate i ';' ++ stmt.map Char.toLower ++
            List.replicate j ';' := by
        rw [hq]
        simp only [List.map_append, List.map_replicate]
        rfl
      rw [hmap, List.append_assoc] at hinf
      have h1 : "union".data <:+: stmt.map Char.toLower ++ List.replicate j ';' :=
        infix_drop_replicate i _ _ (by decide) (by decide) hinf
      have h2 : "union".data <:+: stmt.map Char.toLower :=
        infix_drop_replicate_right j _ _ (by decide) (by decide) h1
      have hcs : containsSub (stmt.map Char.toLower) "union".data = true :=
        (containsSub_iff_occurs _ _).mpr h2
      cases hsel : stmt_is_select stmt with
      | false => simp [hsel, exOk]
      | true => simp [hsel, hcs, exOk]

/-- Claim C3 witness: the amended statement at a `UNION ALL` query. -/
theorem c3_witness :
    exOk (validate_query "select x from t union all select y from u") = false :=
  c3_amended "select x from t union all select y from u" (by decide)

/-- Claim C4, counterexample: a request whose bind-parameter name `1bad`
violates the identifier pattern (as `sanitize_input` would detect) is
nevertheless dispatched and executes successfully — `execute_query`
performs no bind-parameter validation. -/
theorem c4_counterexample :
    pyIdentMatch "1bad".data = false ∧
    exOk (sanitize_input [("1bad", PyValue.pyStr "x")]) = false ∧
    execute_query "select a from t" [("1bad", PyValue.pyStr "x")]
      [10, 20, 30] (some 5) none = Except.ok ([10, 20, 30], false) :=
  ⟨by decide, by decide, rfl⟩

/-- Claim C4, amended: `sanitize_input` implements exactly the claimed
checks — identifier-pattern names, scalar types, 4000-character cap on
strings — but the executor never invokes it: the outcome of
`execute_query` is independent of the bind parameters supplied, so a
violating request does not fail before execution. -/
theorem c4_amended :
    (∀ (ρ : Type) (q : String) (params : List (String × PyValue))
        (rows : List ρ) (maxRows : Option Nat) (execErr : Option String),
      execute_query q params rows maxRows execErr =
        execute_query q [] rows maxRows execErr) ∧
    (∀ params : List (String × PyValue),
      exOk (sanitize_input params) =
        params.all (fun kv =>
          pyIdentMatch kv.1.data && py_is_scalar kv.2 && py_len_ok kv.2)) := by
  constructor
  · intro ρ q params rows maxRows execErr
    rfl
  · intro params
    unfold sanitize_input
    by_cases he : params.isEmpty
    · have : params = [] := by
        cases params with
        | nil => rfl
        | cons a b => exact absurd he (by simp)
      rw [this]
      simp [exOk]
    · rw [if_neg he, ← sanitizeList_ok]
      cases hs : sanitizeList params with
      | error e => simp [Except.map, exOk, hs]
      | ok r => simp [Except.map, exOk, hs]

/-- Claim C5, counterexample: `drop` occurs as a standalone whole-word
token (outside comments and strings) in `select drop from t`; the dead
helper `check_dangerous_keywords` would reject it, but the validation
actually applied before execution accepts the statement. -/
theorem c5_counterexample :
    wwSearch "drop".data none (cleaned "select drop from t") = true ∧
    exOk (check_dangerous_keywords "select drop from t") = false ∧
    exOk (validate_query "select drop from t") = true :=
  ⟨by decide, by decide, by decide⟩

/-- Claim C5, amended: the helper `check_dangerous_keywords` does fail
on every whole-word occurrence of a dangerous keyword after comment
stripping, case-insensitively, and not on occurrences embedded in longer
identifiers — but it is never called: the validation performed before
execution (`validate_query`) does not scan for these keywords. -/
theorem c5_amended :
    (∀ (q : String) (kw : String), kw ∈ DANGEROUS_KEYWORDS →
        wwSearch kw.data none (cleaned q) = true →
        exOk (check_dangerous_keywords q) = false) ∧
    exOk (check_dangerous_keywords "select dropped, backdrop from creation") = true := by
  constructor
  · intro q kw hmem hww
    unfold check_dangerous_keywords
    have hsome :
        (DANGEROUS_KEYWORDS.find?
          (fun kw => wwSearch kw.data none (cleaned q))).isSome := by
      rw [List.find?_isSome]
      exact ⟨kw, hmem, hww⟩
    obtain ⟨k2, hk⟩ := Option.isSome_iff_exists.mp hsome
    rw [hk]
    rfl
  · decide

/-- Claim C5 witness: the amended statement applied to an `UPDATE`
statement in mixed case. -/
theorem c5_witness :
    exOk (check_dangerous_keywords "Update t Set x = 1") = false :=
  c5_amended.1 "Update t Set x = 1" "update" (by decide) (by decide)

/-- Claim C6, counterexample: for the rejected statement `DROP TABLE t`
the call trace of `execute` contains a connection acquisition — the
connection is opened before validation runs, contradicting the claim
that no connection is ever acquired for an invalid statement. -/
theorem c6_counterexample :
    exOk (validate_query "DROP TABLE t") = false ∧
    Ev.connect ∈ (execute none "DROP TABLE t" [] [] [] 1000 (some 10) none).1 :=
  ⟨by decide, by decide⟩

/-- Claim C6, amended: every statement the validator rejects still
acquires a connection first: when the connection is available,
`execute` opens it, validation fails afterwards, the connection is
closed, and the wrapped validation error is returned. -/
theorem c6_amended (q : String) (params : List (String × PyValue))
    (headers : List String) (rows : List (List OraValue)) (maxLen : Nat)
    (maxRows : Option Nat) (execErr : Option String) (e : String)
    (hv : validate_query q = .error e) :
    execute none q params headers rows maxLen maxRows execErr =
      ([Ev.connect, Ev.close], Except.error ("エラーが発生しました: " ++ e)) := by
  unfold execute execute_query
  rw [hv]

/-- Claim C6 witness: the amended statement at `DELETE FROM t`. -/
theorem c6_witness :
    execute none "DELETE FROM t" [] [] [] 500 (some 10) none =
      ([Ev.connect, Ev.close],
       Except.error ("エラーが発生しました: " ++ "SELECT文以外のクエリは実行できません")) :=
  c6_amended "DELETE FROM t" [] [] [] 500 (some 10) none
    "SELECT文以外のクエリは実行できません" rfl

set_option maxRecDepth 40000 in
/-- Claim C7: the code is wrong at `max_rows = 101` against a 150-row
source — the final batch of 100 overshoots the limit and exhausts the
cursor, so the probe `fetchone` returns nothing: the page holds exactly
101 rows but the truncated flag comes back false although 49 rows beyond
the page existed (they were fetched and silently discarded). -/
theorem c7_theorem :
    101 < (List.range 150).length ∧
    (execute_query_fetch (List.range 150) 101).1.length = 101 ∧
    (execute_query_fetch (List.range 150) 101).2 = false :=
  ⟨by decide, by decide, by decide⟩

/-- Claim C8: the `execute_oracle` tool never lets a failure escape —
for every input and every backend behaviour (connection failure,
validation failure, execution error) the result is a single text
content item, the same shape as a success response. -/
theorem c8_theorem (connFail : Option String) (q : String)
    (params : List (String × PyValue)) (maxLen maxRows : Nat)
    (headers : List String) (rows : List (List OraValue))
    (execErr : Option String) :
    ∃ t, execute_oracle connFail q params maxLen maxRows headers rows execErr =
      [TextContent.mk "text" t] := by
  cases h : (execute connFail q params headers rows maxLen (some maxRows) execErr).2 with
  | ok s => exact ⟨s, by unfold execute_oracle; rw [h]⟩
  | error e => exact ⟨e, by unfold execute_oracle; rw [h]⟩

/-- Claim C9: the bounded fetch loop of the executor, run with its fuel
`max_rows + 1`, returns for every row source — even one whose batches
misreport what remains — and the number of `fetchmany` calls it makes is
bounded by `max_rows + 1`. -/
theorem c9_theorem (ρ : Type) (f : Nat → List ρ) (fo : Nat → Option ρ)
    (maxRows : Nat) :
    ∃ out, fetch_loop f fo maxRows (maxRows + 1) 0 [] = some out ∧
      out.2.2 ≤ maxRows + 1 := by
  have := fetch_loop_some f fo maxRows (maxRows + 1) 0 [] (by simp)
  simpa using this

/-- Claim C10: the SQL text `list_tables` executes always carries an
ORDER BY clause that is exactly `TABLE_NAME` or exactly `CREATED`; any
other caller-supplied `order_by` value is replaced by the default
`TABLE_NAME` before interpolation, so no other caller-controlled text
reaches the ORDER BY position. -/
theorem c10_theorem (name_pattern : Option String) (order_by : String)
    (include_system_tables : Bool) :
    (sanitized_order_by order_by = "TABLE_NAME" ∨
     sanitized_order_by order_by = "CREATED") ∧
    (order_by ≠ "TABLE_NAME" → order_by ≠ "CREATED" →
      sanitized_order_by order_by = "TABLE_NAME") ∧
    list_tables_sql name_pattern order_by include_system_tables =
      (list_tables_body name_pattern include_system_tables ++
        "\n                ORDER BY ") ++
      sanitized_order_by order_by ++ "\n                " := by
  refine ⟨?_, ?_, by simp [list_tables_sql, String.append_assoc]⟩
  · unfold sanitized_order_by
    by_cases h1 : order_by = "TABLE_NAME"
    · simp [h1]
    · by_cases h2 : order_by = "CREATED"
      · simp [h1, h2]
      · simp [h1, h2]
  · intro h1 h2
    unfold sanitized_order_by
    simp [h1, h2]

/-- Claim C10 witness: an arbitrary malicious `order_by` value collapses
to the default. -/
theorem c10_witness :
    sanitized_order_by "CREATED; DROP TABLE users" = "TABLE_NAME" :=
  (c10_theorem none "CREATED; DROP TABLE users" true).2.1
    (by decide) (by decide)

end OracleMCP
